import Mathlib

/-!
Shallow embedding of the process-bridge / stream-translation core of the
ai-sdk-provider-goose repository (goose-language-model.ts, errors.ts,
types.ts, convert.ts), together with theorems settling the frozen claims.

Conventions of the embedding:
* TypeScript optional fields become `Option`.
* JavaScript string truthiness (`if (s)`) becomes `strTruthy` (present and
  non-empty).
* `JSON.stringify` applied to a structured content item is an external
  library function; the translator is parameterised over it
  (`stringify : ToolContentItem → String`), so every theorem quantifies
  over all serialisations.
* Fresh identifiers from the SDK `generateId()` are modelled by a counter
  threaded through the translator state, rendered as `"id" ++ toString n`.
* Fields of source records that the modelled code never reads are omitted.
-/

namespace GooseBridge

/-- JavaScript truthiness of an optional string: present and non-empty. -/
def strTruthy : Option String → Bool
  | some s => s ≠ ""
  | none => false

/-- JavaScript `a || b` on an optional string (`event.error || 'Unknown error'`). -/
def strOr (a : Option String) (b : String) : String :=
  match a with
  | some s => if s = "" then b else s
  | none => b

/-! ## errors.ts -/

/-- `GooseErrorMetadata` from errors.ts: optional binPath, args, exitCode, stderr. -/
structure GooseErrorMetadata where
  binPath : Option String := none
  args : Option (List String) := none
  exitCode : Option Int := none
  stderr : Option String := none
deriving DecidableEq, Repr

/-- The fields of the AI SDK `APICallError` object that errors.ts populates. -/
structure APICallError where
  message : String
  url : String
  requestBodyValues : List String
  data : Option GooseErrorMetadata
  isRetryable : Bool
deriving DecidableEq, Repr

/-- `goose://${metadata?.binPath || 'goose'}` (empty binPath is falsy). -/
def errorUrl (md : Option GooseErrorMetadata) : String :=
  "goose://" ++ strOr (md.bind GooseErrorMetadata.binPath) "goose"

/-- `metadata?.args || []` (a present empty array is truthy in JS, so it is kept). -/
def errorRequestBody (md : Option GooseErrorMetadata) : List String :=
  (md.bind GooseErrorMetadata.args).getD []

/-- errors.ts `createAPICallError`: non-retryable, data is the metadata as given. -/
def createAPICallError (message : String) (md : Option GooseErrorMetadata) : APICallError :=
  { message := message
    url := errorUrl md
    requestBodyValues := errorRequestBody md
    data := md
    isRetryable := false }

/-- errors.ts `createTimeoutError`: retryable. -/
def createTimeoutError (timeoutMs : Nat) (md : Option GooseErrorMetadata) : APICallError :=
  { message := "Goose CLI timed out after " ++ toString timeoutMs ++ "ms"
    url := errorUrl md
    requestBodyValues := errorRequestBody md
    data := md
    isRetryable := true }

/-- errors.ts `createProcessError`: non-retryable, data is the metadata with
`exitCode` and `stderr` merged in (`{ ...metadata, exitCode, stderr }`). -/
def createProcessError (message : String) (exitCode : Int) (stderr : String)
    (md : Option GooseErrorMetadata) : APICallError :=
  { message := "Goose CLI error: " ++ message
    url := errorUrl md
    requestBodyValues := errorRequestBody md
    data := some { md.getD {} with exitCode := some exitCode, stderr := some stderr }
    isRetryable := false }

/-! ## types.ts: providers and API-key table -/

/-- Keys of the `PROVIDERS` record in types.ts. -/
def PROVIDERS : List String := ["anthropic", "openai", "google", "xai", "ollama"]

/-- `API_KEY_ENV_VARS` from types.ts; `none` is the explicit `null` for ollama
(and also the result of a table miss, which `buildEnv` never performs because
the provider was validated against `PROVIDERS`). -/
def API_KEY_ENV_VARS (p : String) : Option String :=
  if p = "anthropic" then some "ANTHROPIC_API_KEY"
  else if p = "openai" then some "OPENAI_API_KEY"
  else if p = "google" then some "GOOGLE_API_KEY"
  else if p = "xai" then some "XAI_API_KEY"
  else none

/-! ## goose-language-model.ts: parseModelId, buildCLIArgs, buildEnv -/

/-- `modelId.indexOf('/')` followed by the two `slice` calls, on the
character list: `none` models `indexOf` returning -1, otherwise the
characters strictly before the first slash and all characters after it. -/
def splitAtFirstSlash : List Char → Option (List Char × List Char)
  | [] => none
  | c :: rest =>
      if c = '/' then some ([], rest)
      else
        match splitAtFirstSlash rest with
        | some (pre, post) => some (c :: pre, post)
        | none => none

/-- `parseModelId` from goose-language-model.ts (lines 162-179): split at the
first slash; succeed iff the provider part is a key of `PROVIDERS` and the
model part is a truthy (non-empty) string. -/
def parseModelId (modelId : String) : Option (String × String) :=
  match splitAtFirstSlash modelId.toList with
  | none => none
  | some (pre, post) =>
      let providerName := String.mk pre
      let modelName := String.mk post
      if providerName ∈ PROVIDERS ∧ modelName ≠ "" then some (providerName, modelName)
      else none

/-- `buildCLIArgs` from goose-language-model.ts (lines 293-312), with the JS
truthiness checks on `system` and `settings.sessionName` made explicit. -/
def buildCLIArgs (system : Option String) (prompt : String)
    (sessionName : Option String) (resume : Bool) (extraArgs : List String) :
    List String :=
  let args := ["run", "--with-builtin", "developer", "--output-format", "stream-json"]
  let args := if strTruthy system then args ++ ["--system", system.getD ""] else args
  let args := args ++ ["-t", prompt]
  let args := if strTruthy sessionName then args ++ ["--name", sessionName.getD ""] else args
  let args := if resume then args ++ ["--resume"] else args
  args ++ extraArgs

/-- JS object property assignment `env[k] = v` on an association list with
unique keys: replace in place if the key exists, else append. -/
def envInsert : List (String × String) → String → String → List (String × String)
  | [], k, v => [(k, v)]
  | p :: t, k, v => if p.1 = k then (k, v) :: t else p :: envInsert t k v

/-- JS object property read `env[k]`. -/
def envLookup (l : List (String × String)) (k : String) : Option String :=
  (l.find? (fun p => p.1 = k)).map (fun p => p.2)

/-- `buildEnv` from goose-language-model.ts (lines 216-244):
`{ CONFIGURE: 'false', ...settings.env }`, then `GOOSE_PROVIDER` /
`GOOSE_MODEL` and the per-provider API-key variable when the model id parsed,
then `GOOSE_MAX_TURNS` when `maxTurns` is configured. The spread of
`settings.env` is a fold of assignments over the initial singleton object. -/
def buildEnv (modelId : String) (settingsEnv : List (String × String))
    (apiKey : Option String) (maxTurns : Option Nat) : List (String × String) :=
  let env := (settingsEnv.foldl (fun e p => envInsert e p.1 p.2) [("CONFIGURE", "false")])
  let env :=
    match parseModelId modelId with
    | some (prov, model) =>
        let e := envInsert env "GOOSE_PROVIDER" prov
        let e := envInsert e "GOOSE_MODEL" model
        if strTruthy apiKey then
          match API_KEY_ENV_VARS prov with
          | some keyVar => envInsert e keyVar (apiKey.getD "")
          | none => e
        else e
    | none => env
  match maxTurns with
  | some n => envInsert env "GOOSE_MAX_TURNS" (toString n)
  | none => env

/-! ## Decoded events (types.ts `GooseStreamEvent` and friends) -/

/-- `annotations` on a tool-result content item (convert.ts `ContentAnnotations`);
only the `audience` field is read by the modelled code. -/
structure ContentAnnotations where
  audience : Option (List String) := none
deriving DecidableEq, Repr

/-- `c.resource` on a tool-result content item. -/
structure ResourceRef where
  text : Option String := none
deriving DecidableEq, Repr

/-- One element of a tool result's `value.content` array: the fields read by
`extractToolResultText` (convert.ts) and by the inline filter/map in
`createStreamFromProcess` (goose-language-model.ts). -/
structure ToolContentItem where
  type : String
  text : Option String := none
  resource : Option ResourceRef := none
  annotations : Option ContentAnnotations := none
deriving DecidableEq, Repr

/-- `content.toolCall.value`: a tool's name and its arguments. The source
emits `JSON.stringify(value.arguments)`; the model carries the serialised
arguments directly. -/
structure ToolCallValue where
  name : String
  argumentsJson : String
deriving DecidableEq, Repr

/-- `content.toolCall` (`status` is never read by the modelled code paths,
its presence check `content.toolCall?.value` is `Option.isSome`). -/
structure ToolCallStruct where
  status : String := "success"
  value : ToolCallValue
deriving DecidableEq, Repr

/-- `content.toolResult.value`. -/
structure ToolResultValue where
  content : List ToolContentItem
  isError : Bool := false
deriving DecidableEq, Repr

/-- `content.toolResult`. -/
structure ToolResultStruct where
  status : String := "success"
  value : ToolResultValue
deriving DecidableEq, Repr

/-- types.ts `GooseMessageContent`; the `type` tag decides which optional
payload is read. -/
structure GooseMessageContent where
  type : String
  text : Option String := none
  id : Option String := none
  toolCall : Option ToolCallStruct := none
  toolResult : Option ToolResultStruct := none
deriving DecidableEq, Repr

/-- types.ts `GooseMessage` (fields other than `role` and `content` are
never read by the translator and are omitted). -/
structure GooseMessage where
  role : String
  content : List GooseMessageContent
deriving DecidableEq, Repr

/-- types.ts `GooseStreamEvent`: one decoded JSONL record. -/
structure GooseStreamEvent where
  type : String
  message : Option GooseMessage := none
  total_tokens : Option Nat := none
  error : Option String := none
deriving DecidableEq, Repr

/-- One line of subprocess stdout after the JSON.parse attempt: either a
decoded event or a malformed line (parse failure). -/
inductive RawLine
  | junk
  | ok (event : GooseStreamEvent)
deriving DecidableEq, Repr

/-! ## Caller-facing stream parts (`LanguageModelV3StreamPart` as emitted) -/

/-- `finishReason: { unified, raw }`. -/
structure FinishReason where
  unified : String
  raw : String
deriving DecidableEq, Repr

/-- The token-usage fields the source populates (`inputTokens.total`,
`outputTokens.total`, `outputTokens.text`; the remaining fields are
`undefined`). -/
structure TokenUsage where
  inputTotal : Nat
  outputTotal : Nat
  outputText : Nat
deriving DecidableEq, Repr

/-- The stream parts emitted by `createStreamFromProcess`. -/
inductive StreamPart
  | textStart (id : String)
  | textDelta (id : String) (delta : String)
  | textEnd (id : String)
  | toolCall (toolCallId : String) (toolName : String) (input : String)
  | toolResult (toolCallId : String) (toolName : String) (result : String)
  | finish (finishReason : FinishReason) (usage : TokenUsage)
deriving DecidableEq, Repr

/-! ## Audience filtering (convert.ts and the inline copy in the stream loop) -/

/-- convert.ts `shouldIncludeForAudience`: keep when there is no
`annotations.audience` array, else keep iff it contains the audience. (The
defensive `Array.isArray` and try/catch guards are vacuous on typed data.) -/
def shouldIncludeForAudience (item : ToolContentItem) (audience : String) : Bool :=
  match item.annotations.bind ContentAnnotations.audience with
  | none => true
  | some l => l.contains audience

/-- The common map body of `extractToolResultText` and the inline stream
filter: a truthy text item yields its text, a resource item with truthy
resource text yields that, anything else is serialised with JSON.stringify
(the `stringify` parameter). -/
def renderItem (stringify : ToolContentItem → String) (c : ToolContentItem) : String :=
  if c.type = "text" ∧ strTruthy c.text then c.text.getD ""
  else if c.type = "resource" ∧ strTruthy (c.resource.bind ResourceRef.text) then
    (c.resource.bind ResourceRef.text).getD ""
  else stringify c

/-- convert.ts `extractToolResultText`: filter by audience, render each
survivor, join with newlines. -/
def extractToolResultText (stringify : ToolContentItem → String)
    (content : List ToolContentItem) (audience : String) : String :=
  String.intercalate "\n"
    ((content.filter (fun c => shouldIncludeForAudience c audience)).map (renderItem stringify))

/-- The inline audience filter in `createStreamFromProcess` (lines 497-501):
`!audience || audience.includes('user')`. -/
def streamFilterKeep (c : ToolContentItem) : Bool :=
  match c.annotations.bind ContentAnnotations.audience with
  | none => true
  | some l => l.contains "user"

/-- The inline tool-result text assembly in `createStreamFromProcess`
(lines 495-511), for the always-an-array case of typed data. -/
def streamResultText (stringify : ToolContentItem → String)
    (content : List ToolContentItem) : String :=
  String.intercalate "\n" ((content.filter streamFilterKeep).map (renderItem stringify))

/-! ## The stream translator (goose-language-model.ts `createStreamFromProcess`) -/

/-- The mutable loop state of `createStreamFromProcess`:
`currentTextPartId`, `textStartEmitted`, plus the fresh-id counter that
models `generateId()`. -/
structure TState where
  currentTextPartId : Option String
  textStartEmitted : Bool
  nextId : Nat
deriving DecidableEq, Repr

/-- The state at the top of the loop. -/
def initialTState : TState := ⟨none, false, 0⟩

/-- A fresh identifier from the modelled `generateId()`. -/
def genId (n : Nat) : String := "id" ++ toString n

/-- `content.id || generateId()`: use the content's id when truthy, else
draw a fresh one from the counter. -/
def takeId (cid : Option String) (st : TState) : String × TState :=
  if strTruthy cid then (cid.getD "", st)
  else (genId st.nextId, { st with nextId := st.nextId + 1 })

/-- One assistant content item (lines 460-490): truthy text opens a segment
if none is open and emits a delta; a toolRequest resets the segment state
(without emitting any `textEnd`) and emits a tool-call when
`toolCall?.value` is present. -/
def processAssistantItem (st : TState) (c : GooseMessageContent) :
    TState × List StreamPart :=
  if c.type = "text" ∧ strTruthy c.text then
    let p1 : TState × List StreamPart :=
      if !st.textStartEmitted then
        ({ st with currentTextPartId := some (genId st.nextId), textStartEmitted := true,
                   nextId := st.nextId + 1 }, [StreamPart.textStart (genId st.nextId)])
      else (st, [])
    match p1.1.currentTextPartId with
    | some id =>
        if id ≠ "" then (p1.1, p1.2 ++ [StreamPart.textDelta id (c.text.getD "")])
        else p1
    | none => p1
  else if c.type = "toolRequest" then
    let st1 : TState := { st with textStartEmitted := false, currentTextPartId := none }
    match c.toolCall with
    | some tc =>
        ((takeId c.id st1).2,
         [StreamPart.toolCall (takeId c.id st1).1 tc.value.name tc.value.argumentsJson])
    | none => (st1, [])
  else (st, [])

/-- The assistant content loop. -/
def processAssistantItems (st : TState) :
    List GooseMessageContent → TState × List StreamPart
  | [] => (st, [])
  | c :: rest =>
      ((processAssistantItems (processAssistantItem st c).1 rest).1,
       (processAssistantItem st c).2 ++
         (processAssistantItems (processAssistantItem st c).1 rest).2)

/-- One user content item (lines 492-520): a toolResponse with a present
toolResult emits a tool-result part whose text is the audience-filtered
joined content and whose tool name is the literal `unknown`. -/
def processUserItem (stringify : ToolContentItem → String) (st : TState)
    (c : GooseMessageContent) : TState × List StreamPart :=
  if c.type = "toolResponse" then
    match c.toolResult with
    | some tr =>
        ((takeId c.id st).2,
         [StreamPart.toolResult (takeId c.id st).1 "unknown"
           (streamResultText stringify tr.value.content)])
    | none => (st, [])
  else (st, [])

/-- The user content loop. -/
def processUserItems (stringify : ToolContentItem → String) (st : TState) :
    List GooseMessageContent → TState × List StreamPart
  | [] => (st, [])
  | c :: rest =>
      ((processUserItems stringify (processUserItem stringify st c).1 rest).1,
       (processUserItem stringify st c).2 ++
         (processUserItems stringify (processUserItem stringify st c).1 rest).2)

/-- The parts emitted for a `complete` event (lines 522-549): close the open
text segment if `currentTextPartId && textStartEmitted`, then a finish part
with reason stop/stop and `outputTokens.total = event.total_tokens || 0`.
The segment state is NOT reset. -/
def completeParts (st : TState) (ev : GooseStreamEvent) : List StreamPart :=
  (match st.currentTextPartId with
   | some id => if id ≠ "" ∧ st.textStartEmitted then [StreamPart.textEnd id] else []
   | none => []) ++
  [StreamPart.finish ⟨"stop", "stop"⟩
    ⟨0, ev.total_tokens.getD 0, ev.total_tokens.getD 0⟩]

/-- One decoded event inside the stream loop (lines 456-555): `message`
events dispatch on role, `complete` emits the closing parts, `error` throws
an upstream `APICallError` (which the inner catch rethrows because it has
`isRetryable`), anything else is ignored. -/
def processEvent (stringify : ToolContentItem → String) (binPath : String)
    (args : List String) (ev : GooseStreamEvent) (st : TState) :
    Except APICallError (TState × List StreamPart) :=
  if ev.type = "message" then
    match ev.message with
    | some msg =>
        if msg.role = "assistant" then Except.ok (processAssistantItems st msg.content)
        else if msg.role = "user" then Except.ok (processUserItems stringify st msg.content)
        else Except.ok (st, [])
    | none => Except.ok (st, [])
  else if ev.type = "complete" then Except.ok (st, completeParts st ev)
  else if ev.type = "error" then
    Except.error (createAPICallError (strOr ev.error "Unknown error")
      (some { binPath := some binPath, args := some args }))
  else Except.ok (st, [])

/-- The line loop of `createStreamFromProcess`: malformed lines are logged
and skipped, decoded events are translated in order, an upstream error event
aborts the loop (parts already emitted stay emitted). -/
def runLines (stringify : ToolContentItem → String) (binPath : String)
    (args : List String) (st : TState) :
    List RawLine → TState × List StreamPart × Option APICallError
  | [] => (st, [], none)
  | RawLine.junk :: rest => runLines stringify binPath args st rest
  | RawLine.ok ev :: rest =>
      match processEvent stringify binPath args ev st with
      | Except.ok sp =>
          ((runLines stringify binPath args sp.1 rest).1,
           sp.2 ++ (runLines stringify binPath args sp.1 rest).2.1,
           (runLines stringify binPath args sp.1 rest).2.2)
      | Except.error e => (st, [], some e)

/-- The emitted part sequence and terminal upstream error, from the initial
state. -/
def runStream (stringify : ToolContentItem → String) (binPath : String)
    (args : List String) (lines : List RawLine) :
    List StreamPart × Option APICallError :=
  (runLines stringify binPath args initialTState lines).2

/-! ## Non-streaming path (`spawnGooseProcess` close handling and
`eventsToGenerateResult`) -/

/-- The aggregate result of `doGenerate` (the fields the source populates:
one text content item, finish reason, usage; warnings stay empty). -/
structure GenerateResult where
  text : String
  finishReason : FinishReason
  usage : TokenUsage
deriving DecidableEq, Repr

/-- The fold body of `eventsToGenerateResult` (lines 628-653): accumulate
assistant text, overwrite `totalTokens` on each complete event, throw an
upstream `APICallError` (with metadata carrying ONLY `binPath`, no `args`)
on the first error event. -/
def eventsFold (binPath : String) (text : String) (totalTokens : Nat) :
    List GooseStreamEvent → Except APICallError (String × Nat)
  | [] => Except.ok (text, totalTokens)
  | ev :: rest =>
      if ev.type = "message" then
        match ev.message with
        | some msg =>
            if msg.role = "assistant" then
              let t := msg.content.foldl
                (fun acc c =>
                  if c.type = "text" ∧ strTruthy c.text then acc ++ c.text.getD "" else acc)
                text
              eventsFold binPath t totalTokens rest
            else eventsFold binPath text totalTokens rest
        | none => eventsFold binPath text totalTokens rest
      else if ev.type = "complete" then
        eventsFold binPath text (ev.total_tokens.getD 0) rest
      else if ev.type = "error" then
        Except.error (createAPICallError (strOr ev.error "Unknown error")
          (some { binPath := some binPath }))
      else eventsFold binPath text totalTokens rest

/-- `eventsToGenerateResult`: run the fold, then package the result with the
constant stop/stop finish reason and usage `{ input 0, output totalTokens }`. -/
def eventsToGenerateResult (binPath : String) (events : List GooseStreamEvent) :
    Except APICallError GenerateResult :=
  (eventsFold binPath "" 0 events).map fun r =>
    { text := r.1
      finishReason := ⟨"stop", "stop"⟩
      usage := ⟨0, r.2, r.2⟩ }

/-- Specification-side description of the non-streaming output-token count:
the `total_tokens` of the last complete event (0 when the field is absent),
and 0 when no complete event occurs. -/
def specOutputTokens (events : List GooseStreamEvent) : Nat :=
  match (events.filter fun e => e.type = "complete").getLast? with
  | some e => e.total_tokens.getD 0
  | none => 0

/-- The `close` handler of `spawnGooseProcess` (lines 396-411): a non-zero,
non-null exit code rejects with a `ProcessError` carrying the code and the
captured stderr; exit code 0 — or a null code (signal termination) —
resolves with the buffered event list. -/
def spawnGooseProcessClose (binPath : String) (args : List String)
    (stderr : String) (exitCode : Option Int) (events : List GooseStreamEvent) :
    Except APICallError (List GooseStreamEvent) :=
  match exitCode with
  | some c =>
      if c ≠ 0 then
        Except.error (createProcessError ("Goose CLI exited with code " ++ toString c)
          c stderr (some { binPath := some binPath, args := some args }))
      else Except.ok events
  | none => Except.ok events

/-- `doGenerate` after argument building: buffer events via
`spawnGooseProcess` (whose close handler decides success), then fold them. -/
def doGenerateModel (binPath : String) (args : List String) (stderr : String)
    (exitCode : Option Int) (events : List GooseStreamEvent) :
    Except APICallError GenerateResult :=
  (spawnGooseProcessClose binPath args stderr exitCode events).bind
    (eventsToGenerateResult binPath)

/-! ## Call-start traces (the abort pre-check in both entry paths) -/

/-- Observable actions of the two process-launching functions, in program
order. -/
inductive ProcAction
  | spawnChild (binPath : String) (args : List String)
  | armTimeout (ms : Nat)
  | cancelTimeout
  | killChild (signal : Option String)
  | addAbortListener
  | readLines
  | fail (e : APICallError)
deriving DecidableEq, Repr

/-- The start of `spawnGooseProcess` (lines 327-361), as the action trace up
to the point where it either fails or begins consuming stdout lines.
`aborted = none` models no abort signal; `some b` models a signal whose
`aborted` flag is `b`. The child is spawned and the timeout armed BEFORE the
`abortSignal.aborted` check; a pre-aborted signal then runs `onAbort`:
cancel the timer, SIGTERM the child, reject with the aborted error. -/
def spawnGooseProcessStart (binPath : String) (args : List String)
    (timeoutMs : Nat) (aborted : Option Bool) : List ProcAction :=
  [ProcAction.spawnChild binPath args, ProcAction.armTimeout timeoutMs] ++
  match aborted with
  | some true =>
      [ProcAction.cancelTimeout, ProcAction.killChild (some "SIGTERM"),
       ProcAction.fail (createAPICallError "Request aborted"
         (some { binPath := some binPath, args := some args }))]
  | some false => [ProcAction.addAbortListener, ProcAction.readLines]
  | none => [ProcAction.readLines]

/-- The start of `createStreamFromProcess` (lines 419-445): spawn first,
then on a pre-aborted signal SIGTERM the child and throw the aborted error;
otherwise attach the listener and start reading lines. -/
def createStreamStart (binPath : String) (args : List String)
    (aborted : Option Bool) : List ProcAction :=
  [ProcAction.spawnChild binPath args] ++
  match aborted with
  | some true =>
      [ProcAction.killChild (some "SIGTERM"),
       ProcAction.fail (createAPICallError "Request aborted"
         (some { binPath := some binPath, args := some args }))]
  | some false => [ProcAction.addAbortListener, ProcAction.readLines]
  | none => [ProcAction.readLines]

/-! ## Shared lemmas -/

/-- Appending line lists: if processing the prefix did not abort, the suffix
continues from the prefix state and the emitted parts concatenate. -/
theorem runLines_append_ok (stringify : ToolContentItem → String) (binPath : String)
    (args : List String) (xs : List RawLine) (st st1 : TState) (ps : List StreamPart)
    (h : runLines stringify binPath args st xs = (st1, ps, none)) (ys : List RawLine) :
    runLines stringify binPath args st (xs ++ ys) =
      ((runLines stringify binPath args st1 ys).1,
       ps ++ (runLines stringify binPath args st1 ys).2.1,
       (runLines stringify binPath args st1 ys).2.2) := by
  induction xs generalizing st ps with
  | nil =>
      simp only [runLines, Prod.mk.injEq] at h
      obtain ⟨rfl, rfl, -⟩ := h
      simp [runLines]
  | cons l rest ih =>
      cases l with
      | junk =>
          simp only [runLines] at h
          simpa [runLines] using ih st ps h
      | ok ev =>
          simp only [runLines] at h ⊢
          cases hpe : processEvent stringify binPath args ev st with
          | ok sp =>
              rw [hpe] at h
              simp only at h
              cases hr : runLines stringify binPath args sp.1 rest with
              | mk st2 pr =>
                  cases pr with
                  | mk ps2 e2 =>
                      rw [hr] at h
                      simp only [Prod.mk.injEq] at h
                      obtain ⟨rfl, rfl, he⟩ := h
                      cases e2 with
                      | none => simp [ih sp.1 ps2 hr, List.append_assoc]
                      | some e => exact absurd he (by simp)
          | error e =>
              rw [hpe] at h
              simp only [Prod.mk.injEq] at h
              exact absurd h.2.2 (by simp)

/-- A malformed line anywhere in the stream is skipped without any effect on
the state, the emitted parts, or the terminal error. -/
theorem runLines_junk_skip (stringify : ToolContentItem → String) (binPath : String)
    (args : List String) (xs ys : List RawLine) (st : TState) :
    runLines stringify binPath args st (xs ++ RawLine.junk :: ys) =
      runLines stringify binPath args st (xs ++ ys) := by
  induction xs generalizing st with
  | nil => simp [runLines]
  | cons l rest ih =>
      cases l with
      | junk => simpa [runLines] using ih st
      | ok ev =>
          simp only [List.cons_append, runLines]
          cases h : processEvent stringify binPath args ev st with
          | ok sp => simp [ih sp.1]
          | error e => simp

/-- Assistant content items never emit a finish part. -/
theorem processAssistantItem_no_finish (st : TState) (c : GooseMessageContent)
    (r : FinishReason) (u : TokenUsage) :
    StreamPart.finish r u ∉ (processAssistantItem st c).2 := by
  unfold processAssistantItem
  cases hb : st.textStartEmitted <;>
    simp only [hb, Bool.not_false, Bool.not_true, if_true, if_false, ite_true, ite_false] <;>
    split <;>
    (try split) <;>
    (try split) <;>
    simp_all [takeId]

/-- The assistant content loop never emits a finish part. -/
theorem processAssistantItems_no_finish (l : List GooseMessageContent) (st : TState)
    (r : FinishReason) (u : TokenUsage) :
    StreamPart.finish r u ∉ (processAssistantItems st l).2 := by
  induction l generalizing st with
  | nil => simp [processAssistantItems]
  | cons c rest ih =>
      simp only [processAssistantItems, List.mem_append]
      push_neg
      exact ⟨processAssistantItem_no_finish st c r u, ih _⟩

/-- User content items never emit a finish part. -/
theorem processUserItem_no_finish (stringify : ToolContentItem → String)
    (st : TState) (c : GooseMessageContent) (r : FinishReason) (u : TokenUsage) :
    StreamPart.finish r u ∉ (processUserItem stringify st c).2 := by
  unfold processUserItem
  split <;> (try split) <;> simp_all [takeId]

/-- The user content loop never emits a finish part. -/
theorem processUserItems_no_finish (stringify : ToolContentItem → String)
    (l : List GooseMessageContent) (st : TState) (r : FinishReason) (u : TokenUsage) :
    StreamPart.finish r u ∉ (processUserItems stringify st l).2 := by
  induction l generalizing st with
  | nil => simp [processUserItems]
  | cons c rest ih =>
      simp only [processUserItems, List.mem_append]
      push_neg
      exact ⟨processUserItem_no_finish stringify st c r u, ih _⟩

/-- Every finish part an event can emit has the constant stop/stop reason and
zero input tokens, and its output totals come from the complete event. -/
theorem processEvent_finish_shape (stringify : ToolContentItem → String)
    (binPath : String) (args : List String) (ev : GooseStreamEvent) (st st1 : TState)
    (ps : List StreamPart)
    (h : processEvent stringify binPath args ev st = Except.ok (st1, ps))
    (r : FinishReason) (u : TokenUsage) (hm : StreamPart.finish r u ∈ ps) :
    r = ⟨"stop", "stop"⟩ ∧ u = ⟨0, ev.total_tokens.getD 0, ev.total_tokens.getD 0⟩ := by
  unfold processEvent at h
  split at h
  · -- message event
    split at h
    · split at h
      · rw [Except.ok.injEq] at h
        have h2 := congrArg Prod.snd h
        dsimp only at h2
        rw [← h2] at hm
        exact absurd hm (processAssistantItems_no_finish _ _ r u)
      · split at h
        · rw [Except.ok.injEq] at h
          have h2 := congrArg Prod.snd h
          dsimp only at h2
          rw [← h2] at hm
          exact absurd hm (processUserItems_no_finish stringify _ _ r u)
        · rw [Except.ok.injEq] at h
          have h2 := congrArg Prod.snd h
          dsimp only at h2
          rw [← h2] at hm
          simp at hm
    · rw [Except.ok.injEq] at h
      have h2 := congrArg Prod.snd h
      dsimp only at h2
      rw [← h2] at hm
      simp at hm
  · split at h
    · -- complete event
      rw [Except.ok.injEq] at h
      have h2 := congrArg Prod.snd h
      dsimp only at h2
      rw [← h2] at hm
      simp only [completeParts, List.mem_append] at hm
      rcases hm with hm | hm
      · split at hm
        · split at hm <;> simp_all
        · simp at hm
      · simp only [List.mem_singleton, StreamPart.finish.injEq] at hm
        exact ⟨hm.1, hm.2⟩
    · split at h
      · exact absurd h (by simp)
      · rw [Except.ok.injEq] at h
        have h2 := congrArg Prod.snd h
        dsimp only at h2
        rw [← h2] at hm
        simp at hm

/-- Every finish part in a translated stream has the stop/stop reason and
zero input tokens. -/
theorem runLines_finish_shape (stringify : ToolContentItem → String)
    (binPath : String) (args : List String) (lines : List RawLine) (st : TState)
    (r : FinishReason) (u : TokenUsage)
    (hm : StreamPart.finish r u ∈ (runLines stringify binPath args st lines).2.1) :
    r = ⟨"stop", "stop"⟩ ∧ u.inputTotal = 0 := by
  induction lines generalizing st with
  | nil => simp [runLines] at hm
  | cons l rest ih =>
      cases l with
      | junk =>
          simp only [runLines] at hm
          exact ih st hm
      | ok ev =>
          simp only [runLines] at hm
          revert hm
          cases hpe : processEvent stringify binPath args ev st with
          | ok sp =>
              intro hm
              simp only [List.mem_append] at hm
              rcases hm with hm | hm
              · have := processEvent_finish_shape stringify binPath args ev st sp.1 sp.2
                  (by rw [hpe]) r u hm
                exact ⟨this.1, by rw [this.2]⟩
              · exact ih sp.1 hm
          | error e =>
              intro hm
              simp at hm

/-! ## Claim theorems -/

/-- C1 (code_bug evidence): on the event sequence consisting of one
assistant message with a text item, then a toolRequest item, then another
text item, the translator emits two TextStart parts with no TextEnd between
them, and the ToolCall part is not preceded by a TextEnd — indeed no TextEnd
is ever emitted. This contradicts the claimed close-before-tool invariant:
the source resets `textStartEmitted`/`currentTextPartId` on a toolRequest
without yielding a `text-end` part. -/
theorem claim_C1_code_divergence :
    runStream (fun _ => "") "goose" []
      [RawLine.ok
        { type := "message"
          message := some
            { role := "assistant"
              content :=
                [{ type := "text", text := some "hello" },
                 { type := "toolRequest", id := some "tc1",
                   toolCall := some { value := { name := "shell", argumentsJson := "argjson" } } },
                 { type := "text", text := some "world" }] } }] =
      ([StreamPart.textStart "id0", StreamPart.textDelta "id0" "hello",
        StreamPart.toolCall "tc1" "shell" "argjson",
        StreamPart.textStart "id1", StreamPart.textDelta "id1" "world"], none)
    ∧ (∀ id, StreamPart.textEnd id ∉
        [StreamPart.textStart "id0", StreamPart.textDelta "id0" "hello",
         StreamPart.toolCall "tc1" "shell" "argjson",
         StreamPart.textStart "id1", StreamPart.textDelta "id1" "world"]) := by
  constructor
  · rfl
  · intro id
    simp

/-- C2 counterexample: with a cancellation token already triggered at call
start, both entry paths DO spawn the subprocess (the spawn action occurs in
the trace before the abort check fires), so the claim "no subprocess is
spawned" is false. -/
theorem claim_C2_counterexample :
    ProcAction.spawnChild "goose" ["run"] ∈
      spawnGooseProcessStart "goose" ["run"] 120000 (some true)
    ∧ ProcAction.spawnChild "goose" ["run"] ∈
      createStreamStart "goose" ["run"] (some true) := by
  constructor <;> simp [spawnGooseProcessStart, createStreamStart]

/-- C2 amended: if the cancellation token is already triggered when
doGenerate or doStream is invoked, the just-spawned subprocess is killed
immediately (SIGTERM) and the call fails with the non-retryable
AbortedError ("Request aborted") before any stdout line is consumed. -/
theorem claim_C2_amended (binPath : String) (args : List String) (timeoutMs : Nat) :
    spawnGooseProcessStart binPath args timeoutMs (some true) =
      [ProcAction.spawnChild binPath args, ProcAction.armTimeout timeoutMs,
       ProcAction.cancelTimeout, ProcAction.killChild (some "SIGTERM"),
       ProcAction.fail (createAPICallError "Request aborted"
         (some { binPath := some binPath, args := some args }))]
    ∧ createStreamStart binPath args (some true) =
      [ProcAction.spawnChild binPath args, ProcAction.killChild (some "SIGTERM"),
       ProcAction.fail (createAPICallError "Request aborted"
         (some { binPath := some binPath, args := some args }))]
    ∧ (createAPICallError "Request aborted"
         (some { binPath := some binPath, args := some args })).isRetryable = false
    ∧ (createAPICallError "Request aborted"
         (some { binPath := some binPath, args := some args })).message = "Request aborted"
    ∧ ProcAction.readLines ∉ spawnGooseProcessStart binPath args timeoutMs (some true)
    ∧ ProcAction.readLines ∉ createStreamStart binPath args (some true) := by
  refine ⟨rfl, rfl, rfl, rfl, ?_, ?_⟩ <;>
    simp [spawnGooseProcessStart, createStreamStart]

/-- C4: buildCLIArgs produces exactly the fixed base flags, then the
system-prompt pair iff the system prompt is present (non-empty), then the
user-prompt pair, then the session-name pair iff a session name is set
(non-empty), then the standalone resume flag iff resume is true (even with
no session name), then the extra args verbatim and last; including the
concrete ordering example from the spec. -/
theorem claim_C4 :
    (∀ system prompt sessionName resume extraArgs,
      buildCLIArgs system prompt sessionName resume extraArgs =
        ["run", "--with-builtin", "developer", "--output-format", "stream-json"] ++
        (if strTruthy system then ["--system", system.getD ""] else []) ++
        ["-t", prompt] ++
        (if strTruthy sessionName then ["--name", sessionName.getD ""] else []) ++
        (if resume then ["--resume"] else []) ++
        extraArgs)
    ∧ buildCLIArgs none "prompt" (some "session1") true ["--extra"] =
        ["run", "--with-builtin", "developer", "--output-format", "stream-json",
         "-t", "prompt", "--name", "session1", "--resume", "--extra"] := by
  constructor
  · intro system prompt sessionName resume extraArgs
    unfold buildCLIArgs
    split_ifs <;> simp
  · rfl

/-- C5: the audience filter keeps exactly the items with no audience
annotation plus those whose audience array contains the target audience;
the extracted tool-result output is the newline-join of the rendered
surviving items; the inline stream filter agrees with the shared helper at
audience "user"; and the spec's concrete example (one item annotated only
for "assistant", one unannotated, filtered for "user") yields only the
unannotated item's text. -/
theorem claim_C5 :
    (∀ item audience, shouldIncludeForAudience item audience = true ↔
      (item.annotations.bind ContentAnnotations.audience = none ∨
       audience ∈ (item.annotations.bind ContentAnnotations.audience).getD []))
    ∧ (∀ stringify content audience,
        extractToolResultText stringify content audience =
          String.intercalate "\n"
            ((content.filter fun c => shouldIncludeForAudience c audience).map
              (renderItem stringify)))
    ∧ (∀ stringify content,
        streamResultText stringify content = extractToolResultText stringify content "user")
    ∧ extractToolResultText (fun _ => "")
        [{ type := "text", text := some "secret",
           annotations := some { audience := some ["assistant"] } },
         { type := "text", text := some "hello" }] "user" = "hello" := by
  refine ⟨?_, fun _ _ _ => rfl, fun _ _ => rfl, rfl⟩
  intro item audience
  unfold shouldIncludeForAudience
  cases h : item.annotations.bind ContentAnnotations.audience with
  | none => simp
  | some l => simp [List.contains, List.elem_eq_mem]

/-- C6: a malformed stdout line anywhere in the stream is skipped and
translation continues unaffected (same state, same parts, same terminal
error), and the concrete stream with one unparsable line between two valid
message events yields the parts of both messages with no call-level
error. -/
theorem claim_C6 :
    (∀ stringify binPath args st xs ys,
      runLines stringify binPath args st (xs ++ RawLine.junk :: ys) =
        runLines stringify binPath args st (xs ++ ys))
    ∧ runStream (fun _ => "") "goose" []
        [RawLine.ok
          { type := "message"
            message := some
              { role := "assistant"
                content := [{ type := "text", text := some "one" }] } },
         RawLine.junk,
         RawLine.ok
          { type := "message"
            message := some
              { role := "assistant"
                content := [{ type := "text", text := some "two" }] } }] =
        ([StreamPart.textStart "id0", StreamPart.textDelta "id0" "one",
          StreamPart.textDelta "id0" "two"], none) := by
  exact ⟨fun stringify binPath args st xs ys =>
    runLines_junk_skip stringify binPath args xs ys st, rfl⟩

/-- C3 counterexample: the translator has no terminal `Finished` state — a
message event AFTER a complete event still produces parts, so the part
sequence does not end at the Finish part (its last element is a text delta,
not the finish). -/
theorem claim_C3_counterexample :
    runStream (fun _ => "") "goose" []
      [RawLine.ok { type := "complete", total_tokens := some 5 },
       RawLine.ok
         { type := "message"
           message := some
             { role := "assistant"
               content := [{ type := "text", text := some "x" }] } }] =
      ([StreamPart.finish ⟨"stop", "stop"⟩ ⟨0, 5, 5⟩,
        StreamPart.textStart "id0", StreamPart.textDelta "id0" "x"], none)
    ∧ ([StreamPart.finish ⟨"stop", "stop"⟩ ⟨0, 5, 5⟩,
        StreamPart.textStart "id0", StreamPart.textDelta "id0" "x"].getLast? ≠
          some (StreamPart.finish ⟨"stop", "stop"⟩ ⟨0, 5, 5⟩)) := by
  exact ⟨rfl, by simp⟩

/-- C3 amended: when a complete event arrives while a text segment is open,
a TextEnd for that segment is emitted immediately before the Finish part;
the Finish reason is the canonical stop/stop and its output-token usage is
the complete event's total_tokens (0 when absent); and when the complete
event is the LAST line of the stream, no further parts follow the Finish
part (the translator has no Finished state, so this holds only for a final
complete event). -/
theorem claim_C3_amended :
    (∀ (stringify : ToolContentItem → String) binPath args st (ev : GooseStreamEvent),
      ev.type = "complete" →
      processEvent stringify binPath args ev st = Except.ok (st,
        (match st.currentTextPartId with
         | some id => if id ≠ "" ∧ st.textStartEmitted then [StreamPart.textEnd id] else []
         | none => []) ++
        [StreamPart.finish ⟨"stop", "stop"⟩
          ⟨0, ev.total_tokens.getD 0, ev.total_tokens.getD 0⟩]))
    ∧ (∀ (stringify : ToolContentItem → String) binPath args lines (ev : GooseStreamEvent)
        st1 ps, ev.type = "complete" →
        runLines stringify binPath args initialTState lines = (st1, ps, none) →
        runStream stringify binPath args (lines ++ [RawLine.ok ev]) =
          (ps ++ completeParts st1 ev, none)
        ∧ (ps ++ completeParts st1 ev).getLast? =
            some (StreamPart.finish ⟨"stop", "stop"⟩
              ⟨0, ev.total_tokens.getD 0, ev.total_tokens.getD 0⟩)) := by
  have hA : ∀ (stringify : ToolContentItem → String) binPath args st
      (ev : GooseStreamEvent), ev.type = "complete" →
      processEvent stringify binPath args ev st = Except.ok (st, completeParts st ev) := by
    intro stringify binPath args st ev h
    simp [processEvent, h]
  constructor
  · intro stringify binPath args st ev h
    rw [hA stringify binPath args st ev h]
    simp [completeParts]
  · intro stringify binPath args lines ev st1 ps h hrun
    have happ := runLines_append_ok stringify binPath args lines initialTState st1 ps hrun
      [RawLine.ok ev]
    have hone : runLines stringify binPath args st1 [RawLine.ok ev] =
        (st1, completeParts st1 ev, none) := by
      simp [runLines, hA stringify binPath args st1 ev h]
    constructor
    · simp [runStream, happ, hone]
    · have : completeParts st1 ev =
          (match st1.currentTextPartId with
           | some id => if id ≠ "" ∧ st1.textStartEmitted then [StreamPart.textEnd id] else []
           | none => []) ++
          [StreamPart.finish ⟨"stop", "stop"⟩
            ⟨0, ev.total_tokens.getD 0, ev.total_tokens.getD 0⟩] := rfl
      rw [this, ← List.append_assoc, List.getLast?_concat]

/-- C3 witness: the amended theorem applied to a concrete open-segment state
and a concrete stream whose final line is a complete event. -/
theorem claim_C3_witness :
    processEvent (fun _ => "") "goose" [] { type := "complete", total_tokens := some 5 }
        ⟨some "id0", true, 1⟩ =
      Except.ok ((⟨some "id0", true, 1⟩ : TState),
        [StreamPart.textEnd "id0", StreamPart.finish ⟨"stop", "stop"⟩ ⟨0, 5, 5⟩])
    ∧ runStream (fun _ => "") "goose" []
        ([RawLine.ok
           { type := "message"
             message := some
               { role := "assistant"
                 content := [{ type := "text", text := some "x" }] } }] ++
         [RawLine.ok { type := "complete", total_tokens := some 5 }]) =
        ([StreamPart.textStart "id0", StreamPart.textDelta "id0" "x",
          StreamPart.textEnd "id0", StreamPart.finish ⟨"stop", "stop"⟩ ⟨0, 5, 5⟩], none) := by
  constructor
  · have h := claim_C3_amended.1 (fun _ => "") "goose" [] ⟨some "id0", true, 1⟩
      { type := "complete", total_tokens := some 5 } rfl
    simpa using h
  · have h := (claim_C3_amended.2 (fun _ => "") "goose" []
      [RawLine.ok
        { type := "message"
          message := some
            { role := "assistant"
              content := [{ type := "text", text := some "x" }] } }]
      { type := "complete", total_tokens := some 5 }
      ⟨some "id0", true, 1⟩
      [StreamPart.textStart "id0", StreamPart.textDelta "id0" "x"] rfl rfl).1
    simpa [completeParts] using h

/-- C7 counterexample: the UpstreamError thrown by the non-streaming event
fold (`eventsToGenerateResult`) carries only the binary path in its context
— its metadata has NO argument list — refuting "every error's context
includes the binary path and argument list". -/
theorem claim_C7_counterexample :
    eventsToGenerateResult "goose" [{ type := "error", error := some "boom" }] =
      Except.error (createAPICallError "boom" (some { binPath := some "goose" }))
    ∧ (createAPICallError "boom"
        (some { binPath := some "goose" })).data.bind GooseErrorMetadata.args = none := by
  exact ⟨rfl, rfl⟩

/-- C7 amended: only TimeoutError is retryable, while SpawnError,
AbortedError, ProcessError and UpstreamError (all built by
createAPICallError or createProcessError) are non-retryable; a ProcessError
from a non-zero exit carries that exit code and the captured stderr in its
context (concretely, exit code 2 with stderr "boom"); errors raised in the
spawn and stream paths carry the binary path and argument list, but the
UpstreamError of the non-streaming fold carries only the binary path. -/
theorem claim_C7_amended :
    (∀ ms md, (createTimeoutError ms md).isRetryable = true)
    ∧ (∀ msg md, (createAPICallError msg md).isRetryable = false)
    ∧ (∀ msg c stderr md, (createProcessError msg c stderr md).isRetryable = false)
    ∧ (∀ msg c stderr md,
        (createProcessError msg c stderr md).data.bind GooseErrorMetadata.exitCode = some c
        ∧ (createProcessError msg c stderr md).data.bind GooseErrorMetadata.stderr = some stderr)
    ∧ spawnGooseProcessClose "goose" ["run"] "boom" (some 2) [] =
        Except.error (createProcessError "Goose CLI exited with code 2" 2 "boom"
          (some { binPath := some "goose", args := some ["run"] }))
    ∧ (createProcessError "Goose CLI exited with code 2" 2 "boom"
        (some { binPath := some "goose", args := some ["run"] })).data =
        some { binPath := some "goose", args := some ["run"],
               exitCode := some 2, stderr := some "boom" }
    ∧ (∀ (stringify : ToolContentItem → String) binPath args (ev : GooseStreamEvent) st,
        ev.type = "error" →
        processEvent stringify binPath args ev st =
          Except.error (createAPICallError (strOr ev.error "Unknown error")
            (some { binPath := some binPath, args := some args })))
    ∧ (∀ binPath t n (ev : GooseStreamEvent) rest, ev.type = "error" →
        eventsFold binPath t n (ev :: rest) =
          Except.error (createAPICallError (strOr ev.error "Unknown error")
            (some { binPath := some binPath }))
        ∧ (createAPICallError (strOr ev.error "Unknown error")
            (some { binPath := some binPath })).data.bind GooseErrorMetadata.args = none) := by
  refine ⟨fun _ _ => rfl, fun _ _ => rfl, fun _ _ _ _ => rfl,
    fun _ _ _ _ => ⟨rfl, rfl⟩, by rfl, rfl, ?_, ?_⟩
  · intro stringify binPath args ev st h
    simp [processEvent, h]
  · intro binPath t n ev rest h
    exact ⟨by simp [eventsFold, h], rfl⟩

/-- C7 witness: the amended theorem applied at a concrete error event of
each kind that has a hypothesis. -/
theorem claim_C7_witness :
    processEvent (fun _ => "") "goose" ["run"] { type := "error", error := some "bad" }
        initialTState =
      Except.error (createAPICallError "bad"
        (some { binPath := some "goose", args := some ["run"] }))
    ∧ eventsFold "goose" "" 0 [{ type := "error", error := some "bad" }] =
        Except.error (createAPICallError "bad" (some { binPath := some "goose" })) := by
  constructor
  · have h := claim_C7_amended.2.2.2.2.2.2.1 (fun _ => "") "goose" ["run"]
      { type := "error", error := some "bad" } initialTState rfl
    simpa using h
  · have h := (claim_C7_amended.2.2.2.2.2.2.2 "goose" "" 0
      { type := "error", error := some "bad" } [] rfl).1
    simpa using h

/-- The non-streaming fold throws at the first error event: events before it
(none of which are error events) only update the accumulators. -/
theorem eventsFold_error_at (binPath : String) (ev : GooseStreamEvent)
    (hev : ev.type = "error") :
    ∀ (xs : List GooseStreamEvent), (∀ e ∈ xs, e.type ≠ "error") →
    ∀ t n (ys : List GooseStreamEvent),
      eventsFold binPath t n (xs ++ ev :: ys) =
        Except.error (createAPICallError (strOr ev.error "Unknown error")
          (some { binPath := some binPath })) := by
  intro xs
  induction xs with
  | nil =>
      intro _ t n ys
      simp [eventsFold, hev]
  | cons e rest ih =>
      intro hx t n ys
      have he : e.type ≠ "error" := hx e (List.mem_cons_self e rest)
      have hx2 : ∀ x ∈ rest, x.type ≠ "error" := fun x hm => hx x (List.mem_cons_of_mem e hm)
      by_cases h1 : e.type = "message"
      · cases hm : e.message with
        | some msg =>
            by_cases h2 : msg.role = "assistant" <;>
              simp [eventsFold, h1, hm, h2, ih hx2]
        | none => simp [eventsFold, h1, hm, ih hx2]
      · by_cases h3 : e.type = "complete"
        · simp [eventsFold, h1, h3, ih hx2]
        · simp [eventsFold, h1, h3, he, ih hx2]

/-- C9 counterexample: the buffered event list is also returned when the
exit code is null (signal termination), not only on exit code 0 — the close
handler resolves for both; here a full doGenerate with a null exit code
succeeds. -/
theorem claim_C9_counterexample :
    spawnGooseProcessClose "goose" [] "" none [{ type := "complete", total_tokens := some 5 }] =
      Except.ok [{ type := "complete", total_tokens := some 5 }]
    ∧ doGenerateModel "goose" [] "" none
        [{ type := "message"
           message := some
             { role := "assistant"
               content := [{ type := "text", text := some "x" }] } },
         { type := "complete", total_tokens := some 5 }] =
      Except.ok { text := "x", finishReason := ⟨"stop", "stop"⟩, usage := ⟨0, 5, 5⟩ } := by
  exact ⟨rfl, rfl⟩

/-- C9 amended: in the non-streaming path a decoded error event causes a
thrown error only after the buffered event list is returned, which happens
when the subprocess exits with code 0 OR with a null exit code (signal
termination); a non-zero (non-null) exit throws the ProcessError regardless
of any buffered error event, so ProcessError takes precedence over
UpstreamError; and within the buffer the FIRST error event determines the
thrown UpstreamError message. -/
theorem claim_C9_amended :
    (∀ binPath args stderr (c : Int) (events : List GooseStreamEvent), c ≠ 0 →
      doGenerateModel binPath args stderr (some c) events =
        Except.error (createProcessError ("Goose CLI exited with code " ++ toString c)
          c stderr (some { binPath := some binPath, args := some args })))
    ∧ (∀ binPath args stderr (events : List GooseStreamEvent),
        doGenerateModel binPath args stderr (some 0) events =
          eventsToGenerateResult binPath events)
    ∧ (∀ binPath args stderr (events : List GooseStreamEvent),
        doGenerateModel binPath args stderr none events =
          eventsToGenerateResult binPath events)
    ∧ (∀ binPath (xs : List GooseStreamEvent) (ev : GooseStreamEvent) ys,
        (∀ e ∈ xs, e.type ≠ "error") → ev.type = "error" →
        eventsToGenerateResult binPath (xs ++ ev :: ys) =
          Except.error (createAPICallError (strOr ev.error "Unknown error")
            (some { binPath := some binPath }))) := by
  refine ⟨?_, fun _ _ _ _ => rfl, fun _ _ _ _ => rfl, ?_⟩
  · intro binPath args stderr c events hc
    simp [doGenerateModel, spawnGooseProcessClose, hc, Except.bind]
  · intro binPath xs ev ys hxs hev
    unfold eventsToGenerateResult
    rw [eventsFold_error_at binPath ev hev xs hxs "" 0 ys]
    rfl

/-- C9 witness: the amended theorem applied at a non-zero exit code and at a
buffer whose second event is the first error event. -/
theorem claim_C9_witness :
    doGenerateModel "goose" ["run"] "boom" (some 2) [{ type := "error", error := some "bad" }] =
      Except.error (createProcessError "Goose CLI exited with code 2" 2 "boom"
        (some { binPath := some "goose", args := some ["run"] }))
    ∧ eventsToGenerateResult "goose"
        ([{ type := "complete", total_tokens := some 5 }] ++
          { type := "error", error := some "bad" } ::
            [{ type := "error", error := some "later" }]) =
        Except.error (createAPICallError "bad" (some { binPath := some "goose" })) := by
  constructor
  · exact claim_C9_amended.1 "goose" ["run"] "boom" 2
      [{ type := "error", error := some "bad" }] (by decide)
  · have h := claim_C9_amended.2.2.2 "goose" [{ type := "complete", total_tokens := some 5 }]
      { type := "error", error := some "bad" } [{ type := "error", error := some "later" }]
      (by decide) rfl
    simpa using h

/-- Folding `Option.elim` across a cons: the head becomes the new default. -/
theorem elim_getLast_cons {α β : Type} (a : α) (l : List α) (n : β) (f : α → β) :
    ((a :: l).getLast?).elim n f = (l.getLast?).elim (f a) f := by
  cases l with
  | nil => rfl
  | cons b t =>
      rw [List.getLast?_cons_cons]
      cases h : (b :: t).getLast? with
      | none => exact absurd (List.getLast?_eq_none_iff.mp h) (by simp)
      | some x => rfl

/-- The token accumulator of the non-streaming fold ends as the
`total_tokens` of the last complete event (with the start value as
default). -/
theorem eventsFold_ok_tokens (binPath : String) :
    ∀ (events : List GooseStreamEvent) (t : String) (n : Nat) (t' : String) (n' : Nat),
      eventsFold binPath t n events = Except.ok (t', n') →
      n' = ((events.filter fun e => e.type = "complete").getLast?).elim n
            (fun e => e.total_tokens.getD 0) := by
  intro events
  induction events with
  | nil =>
      intro t n t' n' h
      simp only [eventsFold, Except.ok.injEq, Prod.mk.injEq] at h
      simp [← h.2]
  | cons e rest ih =>
      intro t n t' n' h
      by_cases h1 : e.type = "message"
      · have hf : (e :: rest).filter (fun e => e.type = "complete") =
            rest.filter (fun e => e.type = "complete") := by
          simp [List.filter, h1]
        rw [hf]
        rw [eventsFold] at h
        simp only [h1, if_true, ite_true] at h
        revert h
        cases hm : e.message with
        | some msg =>
            by_cases h2 : msg.role = "assistant" <;> simp only [h2, if_true, if_false,
              ite_true, ite_false] <;> exact fun h => ih _ _ _ _ h
        | none => exact fun h => ih _ _ _ _ h
      · by_cases h3 : e.type = "complete"
        · have hf : (e :: rest).filter (fun e => e.type = "complete") =
              e :: rest.filter (fun e => e.type = "complete") := by
            simp [List.filter, h3]
          rw [hf, elim_getLast_cons]
          rw [eventsFold] at h
          simp only [h1, h3, if_false, if_true, ite_true, ite_false] at h
          exact ih _ _ _ _ h
        · have hf : (e :: rest).filter (fun e => e.type = "complete") =
              rest.filter (fun e => e.type = "complete") := by
            simp [List.filter, h3]
          rw [hf]
          rw [eventsFold] at h
          simp only [h1, h3, if_false, ite_false] at h
          revert h
          by_cases h4 : e.type = "error" <;> simp only [h4, if_true, if_false,
            ite_true, ite_false]
          · exact fun h => absurd h (by simp)
          · exact fun h => ih _ _ _ _ h

/-- C10: the reported usage of every finish part has zero input tokens and
the stop/stop reason; a complete event's finish part carries its
`total_tokens` (0 when absent) as both output totals; and every successful
non-streaming result reports the stop/stop reason, zero input tokens, and
output tokens equal to the last complete event's count (0 with no complete
event). -/
theorem claim_C10 :
    (∀ (stringify : ToolContentItem → String) binPath args lines r u,
      StreamPart.finish r u ∈ (runStream stringify binPath args lines).1 →
        r = ⟨"stop", "stop"⟩ ∧ u.inputTotal = 0)
    ∧ (∀ (stringify : ToolContentItem → String) binPath args st (ev : GooseStreamEvent),
        ev.type = "complete" →
        processEvent stringify binPath args ev st = Except.ok (st, completeParts st ev)
        ∧ (completeParts st ev).getLast? =
            some (StreamPart.finish ⟨"stop", "stop"⟩
              ⟨0, ev.total_tokens.getD 0, ev.total_tokens.getD 0⟩))
    ∧ (∀ binPath (events : List GooseStreamEvent) res,
        eventsToGenerateResult binPath events = Except.ok res →
        res.finishReason = ⟨"stop", "stop"⟩ ∧ res.usage.inputTotal = 0
        ∧ res.usage.outputTotal = specOutputTokens events
        ∧ res.usage.outputText = specOutputTokens events) := by
  refine ⟨?_, ?_, ?_⟩
  · intro stringify binPath args lines r u hm
    exact runLines_finish_shape stringify binPath args lines initialTState r u hm
  · intro stringify binPath args st ev h
    refine ⟨by simp [processEvent, h], ?_⟩
    have : completeParts st ev =
        (match st.currentTextPartId with
         | some id => if id ≠ "" ∧ st.textStartEmitted then [StreamPart.textEnd id] else []
         | none => []) ++
        [StreamPart.finish ⟨"stop", "stop"⟩
          ⟨0, ev.total_tokens.getD 0, ev.total_tokens.getD 0⟩] := rfl
    rw [this, List.getLast?_concat]
  · intro binPath events res h
    unfold eventsToGenerateResult at h
    cases hf : eventsFold binPath "" 0 events with
    | error e => rw [hf] at h; exact absurd h (by simp [Except.map])
    | ok r =>
        rw [hf] at h
        simp only [Except.map, Except.ok.injEq] at h
        have htok := eventsFold_ok_tokens binPath events "" 0 r.1 r.2 (by rw [hf])
        refine ⟨by rw [← h], by rw [← h], ?_, ?_⟩ <;>
          · rw [← h]
            simp only [specOutputTokens, htok]
            cases (events.filter fun e => e.type = "complete").getLast? <;> rfl

/-- C10 witness: the finish-part facts applied to a concrete stream and the
non-streaming facts applied to a concrete successful buffer. -/
theorem claim_C10_witness :
    ((⟨"stop", "stop"⟩ : FinishReason) = ⟨"stop", "stop"⟩ ∧ (0 : Nat) = 0)
    ∧ ({ text := "x", finishReason := ⟨"stop", "stop"⟩, usage := ⟨0, 5, 5⟩ } :
        GenerateResult).finishReason = ⟨"stop", "stop"⟩ := by
  constructor
  · have h := claim_C10.1 (fun _ => "") "goose" []
      [RawLine.ok { type := "complete", total_tokens := some 5 }]
      ⟨"stop", "stop"⟩ ⟨0, 5, 5⟩ (by simp [runStream, runLines, processEvent, completeParts])
    exact ⟨h.1, h.2⟩
  · have h := claim_C10.2.2 "goose"
      [{ type := "message"
         message := some
           { role := "assistant"
             content := [{ type := "text", text := some "x" }] } },
       { type := "complete", total_tokens := some 5 }]
      { text := "x", finishReason := ⟨"stop", "stop"⟩, usage := ⟨0, 5, 5⟩ } rfl
    exact h.1

/-- Reading the key just assigned yields the assigned value. -/
theorem envLookup_insert_self (l : List (String × String)) (k v : String) :
    envLookup (envInsert l k v) k = some v := by
  induction l with
  | nil => simp [envInsert, envLookup]
  | cons p t ih =>
      by_cases h : p.1 = k
      · simp [envInsert, envLookup, h]
      · simp only [envInsert, h, if_false, ite_false]
        simpa [envLookup, List.find?, h] using ih

/-- Assigning one key leaves every other key unchanged. -/
theorem envLookup_insert_ne (l : List (String × String)) (k v k2 : String)
    (h : k2 ≠ k) : envLookup (envInsert l k v) k2 = envLookup l k2 := by
  induction l with
  | nil => simp [envInsert, envLookup, List.find?, h.symm]
  | cons p t ih =>
      by_cases hp : p.1 = k
      · simp only [envInsert, hp, if_true, ite_true]
        simp [envLookup, List.find?, hp, h.symm, Ne.symm h]
      · simp only [envInsert, hp, if_false, ite_false]
        by_cases hp2 : p.1 = k2
        · simp [envLookup, List.find?, hp2]
        · simpa [envLookup, List.find?, hp2] using ih

/-- Spreading a caller map that never binds key `k` leaves `k`'s value
unchanged. -/
theorem envLookup_foldl (l : List (String × String)) (k : String)
    (hk : k ∉ l.map Prod.fst) :
    ∀ e0, envLookup (l.foldl (fun e p => envInsert e p.1 p.2) e0) k = envLookup e0 k := by
  induction l with
  | nil => intro e0; rfl
  | cons p t ih =>
      intro e0
      simp only [List.map_cons, List.mem_cons] at hk
      push_neg at hk
      rw [List.foldl_cons, ih hk.2, envLookup_insert_ne e0 p.1 p.2 k hk.1]

/-- The initial environment binds CONFIGURE to 'false'. -/
theorem envLookup_base_self :
    envLookup [("CONFIGURE", "false")] "CONFIGURE" = some "false" := rfl

/-- The initial environment binds nothing else. -/
theorem envLookup_base_ne (k : String) (h : ¬k = "CONFIGURE") :
    envLookup [("CONFIGURE", "false")] k = none := by
  have h2 : ("CONFIGURE" = k) = False := eq_false fun he => h he.symm
  simp [envLookup, List.find?, h2]

/-- A successful parseModelId yields one of the five known providers and a
non-empty model name. -/
theorem parseModelId_sound (s p m : String) (h : parseModelId s = some (p, m)) :
    p ∈ PROVIDERS ∧ m ≠ "" := by
  unfold parseModelId at h
  split at h
  · exact absurd h (by simp)
  · dsimp only at h
    split at h
    · rename_i hc
      simp only [Option.some.injEq, Prod.mk.injEq] at h
      obtain ⟨h1', h2'⟩ := h
      rw [← h1', ← h2']
      exact hc
    · exact absurd h (by simp)

/-- C8 counterexample: a caller-supplied env map is spread AFTER the
`CONFIGURE: 'false'` entry, so it can override it — the built environment
does not always contain CONFIGURE='false'. -/
theorem claim_C8_counterexample :
    envLookup (buildEnv "goose" [("CONFIGURE", "true")] none none) "CONFIGURE" =
      some "true" := by
  decide

/-- C8 amended: provided the caller-supplied env map binds none of the
reserved variable names (CONFIGURE, GOOSE_PROVIDER, GOOSE_MODEL,
GOOSE_MAX_TURNS, or any provider API-key variable), the built environment
contains CONFIGURE='false'; it binds GOOSE_PROVIDER and GOOSE_MODEL to the
parsed pair exactly when the model id parses; GOOSE_MAX_TURNS is bound
exactly when maxTurns is configured; and with a parsed provider and a
non-empty apiKey, the static API_KEY_ENV_VARS table determines the API-key
variable that is set — none at all for ollama. -/
theorem claim_C8_amended (modelId : String) (settingsEnv : List (String × String))
    (apiKey : Option String) (maxTurns : Option Nat)
    (h1 : "CONFIGURE" ∉ settingsEnv.map Prod.fst)
    (h2 : "GOOSE_PROVIDER" ∉ settingsEnv.map Prod.fst)
    (h3 : "GOOSE_MODEL" ∉ settingsEnv.map Prod.fst)
    (h4 : "GOOSE_MAX_TURNS" ∉ settingsEnv.map Prod.fst)
    (h5 : "ANTHROPIC_API_KEY" ∉ settingsEnv.map Prod.fst)
    (h6 : "OPENAI_API_KEY" ∉ settingsEnv.map Prod.fst)
    (h7 : "GOOGLE_API_KEY" ∉ settingsEnv.map Prod.fst)
    (h8 : "XAI_API_KEY" ∉ settingsEnv.map Prod.fst) :
    envLookup (buildEnv modelId settingsEnv apiKey maxTurns) "CONFIGURE" = some "false"
    ∧ (match parseModelId modelId with
       | some (p, m) =>
           envLookup (buildEnv modelId settingsEnv apiKey maxTurns) "GOOSE_PROVIDER" = some p
           ∧ envLookup (buildEnv modelId settingsEnv apiKey maxTurns) "GOOSE_MODEL" = some m
       | none =>
           envLookup (buildEnv modelId settingsEnv apiKey maxTurns) "GOOSE_PROVIDER" = none
           ∧ envLookup (buildEnv modelId settingsEnv apiKey maxTurns) "GOOSE_MODEL" = none)
    ∧ (match maxTurns with
       | some n =>
           envLookup (buildEnv modelId settingsEnv apiKey maxTurns) "GOOSE_MAX_TURNS" =
             some (toString n)
       | none =>
           envLookup (buildEnv modelId settingsEnv apiKey maxTurns) "GOOSE_MAX_TURNS" = none)
    ∧ (match parseModelId modelId with
       | some (p, _) =>
           strTruthy apiKey = true →
           (match API_KEY_ENV_VARS p with
            | some keyVar =>
                envLookup (buildEnv modelId settingsEnv apiKey maxTurns) keyVar =
                  some (apiKey.getD "")
            | none =>
                envLookup (buildEnv modelId settingsEnv apiKey maxTurns)
                  "ANTHROPIC_API_KEY" = none
                ∧ envLookup (buildEnv modelId settingsEnv apiKey maxTurns)
                    "OPENAI_API_KEY" = none
                ∧ envLookup (buildEnv modelId settingsEnv apiKey maxTurns)
                    "GOOGLE_API_KEY" = none
                ∧ envLookup (buildEnv modelId settingsEnv apiKey maxTurns)
                    "XAI_API_KEY" = none)
       | none => True) := by
  unfold buildEnv
  cases hp : parseModelId modelId with
  | none =>
      cases hmt : maxTurns <;>
        simp [envLookup_insert_self, envLookup_insert_ne, envLookup_foldl,
          envLookup_base_self, envLookup_base_ne, h1, h2, h3, h4]
  | some pm =>
      obtain ⟨p, m⟩ := pm
      obtain ⟨hprov, -⟩ := parseModelId_sound modelId p m hp
      simp only [PROVIDERS, List.mem_cons, List.not_mem_nil, or_false] at hprov
      rcases hprov with rfl | rfl | rfl | rfl | rfl <;>
        cases hmt : maxTurns <;>
        by_cases hkey : strTruthy apiKey = true <;>
          simp [hkey, API_KEY_ENV_VARS, envLookup_insert_self, envLookup_insert_ne,
            envLookup_foldl, envLookup_base_self, envLookup_base_ne,
            h1, h2, h3, h4, h5, h6, h7, h8]

/-- C8 witness: the amended theorem applied to a concrete anthropic model id
with an API key, a turn budget, and an empty caller env map. -/
theorem claim_C8_witness :
    envLookup (buildEnv "anthropic/claude-sonnet-4-5" [] (some "sk-key") (some 7))
        "CONFIGURE" = some "false"
    ∧ envLookup (buildEnv "anthropic/claude-sonnet-4-5" [] (some "sk-key") (some 7))
        "GOOSE_PROVIDER" = some "anthropic"
    ∧ envLookup (buildEnv "anthropic/claude-sonnet-4-5" [] (some "sk-key") (some 7))
        "GOOSE_MODEL" = some "claude-sonnet-4-5"
    ∧ envLookup (buildEnv "anthropic/claude-sonnet-4-5" [] (some "sk-key") (some 7))
        "GOOSE_MAX_TURNS" = some "7"
    ∧ envLookup (buildEnv "anthropic/claude-sonnet-4-5" [] (some "sk-key") (some 7))
        "ANTHROPIC_API_KEY" = some "sk-key" := by
  have h := claim_C8_amended "anthropic/claude-sonnet-4-5" [] (some "sk-key") (some 7)
    (by simp) (by simp) (by simp) (by simp) (by simp) (by simp) (by simp) (by simp)
  rw [show parseModelId "anthropic/claude-sonnet-4-5" =
      some ("anthropic", "claude-sonnet-4-5") by decide] at h
  obtain ⟨hA, hB, hC, hD⟩ := h
  have hD2 := hD (by decide)
  rw [show API_KEY_ENV_VARS "anthropic" = some "ANTHROPIC_API_KEY" from rfl] at hD2
  exact ⟨hA, hB.1, hB.2, hC, hD2⟩

end GooseBridge
